import Mathlib

/-!
Verification of the similarity-graph construction pipeline of the
`spotify-reccomendation-engine` repository (`src/neo4j_driver.py`),
as a shallow embedding in Lean 4.

Numeric track attributes are embedded as rationals (`ℚ`); the Euclidean
distance, which takes a real square root, lives in `ℝ`.  Database state is
explicit: the edge store is a `List Edge`, the node store is a function from
node id to its property map.  Fallible operations return `Option`.
-/

namespace SpotifyRec

/-- A Neo4j property value as the Python driver sees it: a string, a number
(int or float, both embedded as `ℚ`), or a boolean. -/
inductive PValue where
  | str (s : String)
  | num (q : ℚ)
  | boolean (b : Bool)
deriving DecidableEq

/-- A track's property map (`_properties` of a Neo4j node), in iteration
order of the Python dict. -/
abbrev Dict := List (String × PValue)

/-- `self.exclude_keys` from `Neo4jDriver.__init__`. -/
def exclude_keys : List String :=
  ["artist", "album", "name", "genre", "id", "explicit"]

/-- `process_dict` inside `eucliean_distance`: walk the dict in order,
skip keys in `exclude_keys`, map booleans to 0/1, keep numbers, drop
strings. -/
def process_dict (d : Dict) : List ℚ :=
  d.filterMap fun kv =>
    if kv.1 ∈ exclude_keys then none
    else
      match kv.2 with
      | .boolean b => some (if b then 1 else 0)
      | .num q => some q
      | .str _ => none

/-- Elementwise subtraction of two 1-D numpy arrays (`t1 - t2`), with
numpy's 1-D broadcasting: equal lengths subtract elementwise; a length-1
array broadcasts against the other; any other length mismatch raises
(`none`). -/
def broadcastSub (t1 t2 : List ℚ) : Option (List ℚ) :=
  if t1.length = t2.length then some (List.zipWith (fun a b => a - b) t1 t2)
  else
    match t1, t2 with
    | [a], l => some (l.map fun b => a - b)
    | l, [b] => some (l.map fun a => a - b)
    | _, _ => none

/-- Sum of squares of a vector (the inside of `np.linalg.norm`). -/
def sumSq (l : List ℚ) : ℚ := (l.map fun x => x ^ 2).sum

/-- `eucliean_distance` (source spelling): extract both feature vectors with
`process_dict`, subtract as numpy arrays, and take the 2-norm
`sqrt (Σ xᵢ²)`.  `none` models the numpy broadcast error that aborts the
call for incompatible lengths. -/
noncomputable def eucliean_distance (track1 track2 : Dict) : Option ℝ :=
  (broadcastSub (process_dict track1) (process_dict track2)).map
    fun d => Real.sqrt ((sumSq d : ℚ) : ℝ)

/-- A relationship in the graph store, as written by `create_relationship`:
`CREATE (a)-[r:TYPE ...sim_score...]->(b)` on internal node ids. -/
structure Edge where
  start_node_id : Nat
  end_node_id : Nat
  rel_type : String
  sim_score : ℝ

/-- `create_relationship`: unconditionally `CREATE`s one new relationship
(no `MERGE`, no dedup), i.e. appends one edge to the store. -/
def create_relationship (db : List Edge) (start_node_id end_node_id : Nat)
    (rel_type : String) (sim_score : ℝ) : List Edge :=
  db ++ [⟨start_node_id, end_node_id, rel_type, sim_score⟩]

/-- The inner loop of `evaluate_metrics` for one artist node: score the
artist node against each sampled node in order and keep a `MATCHED` edge
exactly when `similarity_score > threshold`.  A scoring failure (numpy
broadcast error) aborts the run (`none`). -/
noncomputable def pair_edges (props : Nat → Dict) (threshold : ℝ)
    (node_artist : Nat) : List Nat → Option (List Edge)
  | [] => some []
  | pair_node :: rest =>
    match eucliean_distance (props node_artist) (props pair_node) with
    | none => none
    | some s =>
      match pair_edges props threshold node_artist rest with
      | none => none
      | some es =>
        some (if s > threshold then
          ⟨node_artist, pair_node, "MATCHED", s⟩ :: es else es)

/-- `evaluate_metrics`: for every artist node and every sampled random node,
compute the similarity score and create a `MATCHED` relationship carrying
`sim_score` when the score is above the threshold (default 0). -/
noncomputable def evaluate_metrics (props : Nat → Dict) (threshold : ℝ) :
    List Nat → List Nat → Option (List Edge)
  | [], _ => some []
  | node_artist :: rest, random_nodes =>
    match pair_edges props threshold node_artist random_nodes with
    | none => none
    | some es =>
      match evaluate_metrics props threshold rest random_nodes with
      | none => none
      | some es2 => some (es ++ es2)

/-- One run of the materialization step against an existing edge store:
every edge that `evaluate_metrics` decides on is written with
`create_relationship`, accumulating onto whatever edges are already
there. -/
noncomputable def run_materialization (db : List Edge) (props : Nat → Dict)
    (threshold : ℝ) (artists_nodes random_nodes : List Nat) :
    Option (List Edge) :=
  (evaluate_metrics props threshold artists_nodes random_nodes).map fun es =>
    es.foldl (fun d e =>
      create_relationship d e.start_node_id e.end_node_id e.rel_type e.sim_score) db

/-- The per-attribute update attempted by `normalize_data` on a stored value:
`(track_feature - min) / (max - min)` is computed and written back; when the
division raises (`max == min` gives `ZeroDivisionError`), the bare
`except: pass` swallows it and the stored value is left unchanged. -/
def normalize_update (track_feature mx mn : ℚ) : ℚ :=
  if mx - mn = 0 then track_feature
  else (track_feature - mn) / (mx - mn)

/-- A track node as `random_sample`'s queries see it: an internal id and the
`artist` property. -/
structure TrackNode where
  id : Nat
  artist : String

/-- `random_sample`: `population` is the track table in the random order
produced by `ORDER BY rand()`.  The first query keeps tracks whose artist is
NOT the given artist and truncates to `batch_size` (`LIMIT`); the second
keeps exactly the given artist's tracks.  Returns
(`random_nodes`, `artists_nodes`). -/
def random_sample (population : List TrackNode) (batch_size : Nat)
    (artist : String) : List Nat × List Nat :=
  (((population.filter fun t => ¬ t.artist = artist).map TrackNode.id).take
      batch_size,
    (population.filter fun t => t.artist = artist).map TrackNode.id)

/-- A two-node store used to exercise the pipeline concretely: node 0 has
`danceability = 0`, every other node has `danceability = 2`, so the
Euclidean distance between node 0 and node 1 is `sqrt ((0-2)^2) = 2`. -/
def exProps : Nat → Dict := fun n =>
  if n = 0 then [("danceability", PValue.num 0)]
  else [("danceability", PValue.num 2)]

/-- A row returned by the recommendation query: `t2.name`, `t2.artist` and
the edge's `sim_score`. -/
structure Row where
  name : String
  artist : String
  sim_score : ℚ
deriving DecidableEq

/-- `find_recommended_songs`: `rows` are the `MATCHED` edges outgoing from
the artist's tracks, in store order.  The query orders by `r.sim_score ASC`,
truncates to `num_recommendations` (`LIMIT`), formats each row as
`"name, artist"`, and the result list is collapsed into a set. -/
def find_recommended_songs (rows : List Row) (num_recommendations : Nat) :
    Finset String :=
  (((rows.mergeSort fun a b => a.sim_score ≤ b.sim_score).take
      num_recommendations).map fun r => r.name ++ ", " ++ r.artist).toFinset

/-! Helper lemmas. -/

lemma sumSq_nil : sumSq [] = 0 := rfl

lemma sumSq_cons (x : ℚ) (l : List ℚ) : sumSq (x :: l) = x ^ 2 + sumSq l := by
  simp [sumSq]

lemma sumSq_zipWith_sub_comm (A : List ℚ) : ∀ B : List ℚ,
    sumSq (List.zipWith (fun a b => a - b) A B) =
      sumSq (List.zipWith (fun a b => a - b) B A) := by
  induction A with
  | nil => intro B; cases B <;> simp
  | cons a as ih =>
    intro B
    cases B with
    | nil => simp
    | cons b bs => simp [sumSq_cons, ih bs]; ring

lemma sumSq_zipWith_sub_self (A : List ℚ) :
    sumSq (List.zipWith (fun a b => a - b) A A) = 0 := by
  induction A with
  | nil => rfl
  | cons a as ih => rw [List.zipWith_cons_cons, sumSq_cons, ih]; ring

/-- On records whose feature vectors have equal length, `eucliean_distance`
is the 2-norm of the elementwise difference. -/
lemma eucliean_distance_eq (t1 t2 : Dict)
    (h : (process_dict t1).length = (process_dict t2).length) :
    eucliean_distance t1 t2 =
      some (Real.sqrt ((sumSq (List.zipWith (fun a b => a - b)
        (process_dict t1) (process_dict t2)) : ℚ) : ℝ)) := by
  unfold eucliean_distance broadcastSub
  rw [if_pos h]
  rfl

/-- The distance between two records whose feature vectors coincide is 0. -/
lemma eucliean_distance_self_vec (t1 t2 : Dict)
    (h : process_dict t1 = process_dict t2) :
    eucliean_distance t1 t2 = some 0 := by
  rw [eucliean_distance_eq t1 t2 (by rw [h]), h,
    sumSq_zipWith_sub_self]
  norm_num

/-- Every edge produced by the inner loop of `evaluate_metrics` starts at
the artist node, ends at one of the sampled nodes, is labeled `MATCHED`,
carries exactly the computed distance as `sim_score`, and that score is
strictly above the threshold. -/
lemma pair_edges_sound (props : Nat → Dict) (t : ℝ) (a : Nat) :
    ∀ (rs : List Nat) (es : List Edge), pair_edges props t a rs = some es →
      ∀ e ∈ es, e.start_node_id = a ∧ e.end_node_id ∈ rs ∧
        e.rel_type = "MATCHED" ∧
        eucliean_distance (props a) (props e.end_node_id) = some e.sim_score ∧
        e.sim_score > t := by
  intro rs
  induction rs with
  | nil =>
    intro es h e he
    simp only [pair_edges, Option.some.injEq] at h
    subst h
    simp at he
  | cons r rest ih =>
    intro es h e he
    simp only [pair_edges] at h
    cases hd : eucliean_distance (props a) (props r) with
    | none => rw [hd] at h; simp at h
    | some s =>
      rw [hd] at h
      cases hrec : pair_edges props t a rest with
      | none => rw [hrec] at h; simp at h
      | some es1 =>
        rw [hrec] at h
        simp only [Option.some.injEq] at h
        subst h
        by_cases hst : s > t
        · rw [if_pos hst] at he
          rcases List.mem_cons.mp he with rfl | he1
          · exact ⟨rfl, List.mem_cons_self _ _, rfl, hd, hst⟩
          · obtain ⟨h1, h2, h3, h4, h5⟩ := ih es1 hrec e he1
            exact ⟨h1, List.mem_cons_of_mem _ h2, h3, h4, h5⟩
        · rw [if_neg hst] at he
          obtain ⟨h1, h2, h3, h4, h5⟩ := ih es1 hrec e he
          exact ⟨h1, List.mem_cons_of_mem _ h2, h3, h4, h5⟩

/-- Conversely, every sampled node whose distance from the artist node is
strictly above the threshold gets its `MATCHED` edge. -/
lemma pair_edges_complete (props : Nat → Dict) (t : ℝ) (a : Nat) :
    ∀ (rs : List Nat) (es : List Edge), pair_edges props t a rs = some es →
      ∀ r ∈ rs, ∀ s : ℝ, eucliean_distance (props a) (props r) = some s →
        s > t → (⟨a, r, "MATCHED", s⟩ : Edge) ∈ es := by
  intro rs
  induction rs with
  | nil => intro es h r hr; simp at hr
  | cons r0 rest ih =>
    intro es h r hr s hd hst
    simp only [pair_edges] at h
    cases hd0 : eucliean_distance (props a) (props r0) with
    | none => rw [hd0] at h; simp at h
    | some s0 =>
      rw [hd0] at h
      cases hrec : pair_edges props t a rest with
      | none => rw [hrec] at h; simp at h
      | some es1 =>
        rw [hrec] at h
        simp only [Option.some.injEq] at h
        subst h
        rcases List.mem_cons.mp hr with rfl | hr1
        · rw [hd0] at hd
          injection hd with hs
          subst hs
          rw [if_pos hst]
          exact List.mem_cons_self _ _
        · have hmem := ih es1 hrec r hr1 s hd hst
          by_cases h0 : s0 > t
          · rw [if_pos h0]; exact List.mem_cons_of_mem _ hmem
          · rw [if_neg h0]; exact hmem

/-- Soundness of a whole `evaluate_metrics` run. -/
lemma evaluate_metrics_sound (props : Nat → Dict) (t : ℝ) :
    ∀ (artists randoms : List Nat) (es : List Edge),
      evaluate_metrics props t artists randoms = some es →
      ∀ e ∈ es, e.start_node_id ∈ artists ∧ e.end_node_id ∈ randoms ∧
        e.rel_type = "MATCHED" ∧
        eucliean_distance (props e.start_node_id) (props e.end_node_id) =
          some e.sim_score ∧
        e.sim_score > t := by
  intro artists
  induction artists with
  | nil =>
    intro rs es h e he
    simp only [evaluate_metrics, Option.some.injEq] at h
    subst h
    simp at he
  | cons a rest ih =>
    intro rs es h e he
    simp only [evaluate_metrics] at h
    cases hp : pair_edges props t a rs with
    | none => rw [hp] at h; simp at h
    | some es1 =>
      rw [hp] at h
      cases hrec : evaluate_metrics props t rest rs with
      | none => rw [hrec] at h; simp at h
      | some es2 =>
        rw [hrec] at h
        simp only [Option.some.injEq] at h
        subst h
        rcases List.mem_append.mp he with he1 | he2
        · obtain ⟨h1, h2, h3, h4, h5⟩ := pair_edges_sound props t a rs es1 hp e he1
          exact ⟨h1 ▸ List.mem_cons_self _ _, h2, h3, by rw [h1]; exact h4, h5⟩
        · obtain ⟨h1, h2, h3, h4, h5⟩ := ih rs es2 hrec e he2
          exact ⟨List.mem_cons_of_mem _ h1, h2, h3, h4, h5⟩

/-- Completeness of a whole `evaluate_metrics` run. -/
lemma evaluate_metrics_complete (props : Nat → Dict) (t : ℝ) :
    ∀ (artists randoms : List Nat) (es : List Edge),
      evaluate_metrics props t artists randoms = some es →
      ∀ a ∈ artists, ∀ r ∈ randoms, ∀ s : ℝ,
        eucliean_distance (props a) (props r) = some s → s > t →
        (⟨a, r, "MATCHED", s⟩ : Edge) ∈ es := by
  intro artists
  induction artists with
  | nil => intro rs es h a ha; simp at ha
  | cons a0 rest ih =>
    intro rs es h a ha r hr s hd hst
    simp only [evaluate_metrics] at h
    cases hp : pair_edges props t a0 rs with
    | none => rw [hp] at h; simp at h
    | some es1 =>
      rw [hp] at h
      cases hrec : evaluate_metrics props t rest rs with
      | none => rw [hrec] at h; simp at h
      | some es2 =>
        rw [hrec] at h
        simp only [Option.some.injEq] at h
        subst h
        rcases List.mem_cons.mp ha with rfl | ha1
        · exact List.mem_append.mpr
            (Or.inl (pair_edges_complete props t a rs es1 hp r hr s hd hst))
        · exact List.mem_append.mpr (Or.inr (ih rs es2 hrec a ha1 r hr s hd hst))

/-- The concrete store `exProps` gives distance 2 between nodes 0 and 1. -/
lemma exProps_distance : eucliean_distance (exProps 0) (exProps 1) = some 2 := by
  have h := eucliean_distance_eq (exProps 0) (exProps 1) rfl
  rw [h]
  have hv : process_dict (exProps 0) = [0] := rfl
  have hv1 : process_dict (exProps 1) = [2] := rfl
  rw [hv, hv1]
  have hs : sumSq (List.zipWith (fun a b => a - b) [0] [2]) = 4 := by
    simp [sumSq]
    norm_num
  rw [hs]
  have : ((4 : ℚ) : ℝ) = (2 : ℝ) ^ 2 := by norm_num
  rw [this, Real.sqrt_sq (by norm_num)]

/-- `evaluate_metrics` on a single artist node and a single sampled node. -/
lemma evaluate_metrics_pair (props : Nat → Dict) (t : ℝ) (a r : Nat) :
    evaluate_metrics props t [a] [r] =
      match eucliean_distance (props a) (props r) with
      | none => none
      | some s => some (if s > t then [⟨a, r, "MATCHED", s⟩] else []) := by
  cases hd : eucliean_distance (props a) (props r) with
  | none => simp [evaluate_metrics, pair_edges, hd]
  | some s =>
    simp only [evaluate_metrics, pair_edges, hd]
    by_cases hst : s > t <;> simp [hst]

/-- With threshold 0 the pair (0, 1) of `exProps` gets its edge. -/
lemma evaluate_exProps_zero :
    evaluate_metrics exProps 0 [0] [1] = some [⟨0, 1, "MATCHED", 2⟩] := by
  rw [evaluate_metrics_pair, exProps_distance]
  norm_num

/-- With threshold 10 the pair (0, 1) of `exProps` gets no edge, although
its score 2 is below the threshold. -/
lemma evaluate_exProps_ten : evaluate_metrics exProps 10 [0] [1] = some [] := by
  rw [evaluate_metrics_pair, exProps_distance]
  norm_num

/-! Claim theorems. -/

/-- C4: for feature vectors of equal dimension, the Euclidean distance is
symmetric, and the distance from any record to itself is zero. -/
theorem C4_distance_symm_self (A B : Dict)
    (h : (process_dict A).length = (process_dict B).length) :
    eucliean_distance A B = eucliean_distance B A ∧
      eucliean_distance A A = some 0 := by
  constructor
  · rw [eucliean_distance_eq A B h, eucliean_distance_eq B A h.symm,
      sumSq_zipWith_sub_comm (process_dict A) (process_dict B)]
  · exact eucliean_distance_self_vec A A rfl

/-- Witness for C4 at two concrete one-feature records. -/
theorem C4_distance_symm_self_witness :
    (process_dict [("energy", PValue.num 1)]).length =
      (process_dict [("tempo", PValue.num 3)]).length ∧
    (eucliean_distance [("energy", PValue.num 1)] [("tempo", PValue.num 3)] =
      eucliean_distance [("tempo", PValue.num 3)] [("energy", PValue.num 1)] ∧
    eucliean_distance [("energy", PValue.num 1)] [("energy", PValue.num 1)] =
      some 0) :=
  ⟨rfl, C4_distance_symm_self _ _ rfl⟩

/-- C3 counterexample: on a degenerate attribute (`max == min == 5`, so the
stored value is 5), the attempted update raises `ZeroDivisionError`, the
bare `except` swallows it, and the stored value stays 5 — not the fallback
0.0 the claim promises. -/
theorem C3_counterexample :
    normalize_update 5 5 5 = 5 ∧ normalize_update 5 5 5 ≠ 0 := by
  constructor <;> norm_num [normalize_update]

/-- C3 amended: for `max > min` the update stores `(v - min)/(max - min)`,
sending `min` to 0 and `max` to 1; for `max == min` the division error is
swallowed and the stored value is left unchanged (no 0.0 fallback). -/
theorem C3_normalize (v mn mx : ℚ) (h : mn < mx) :
    normalize_update v mx mn = (v - mn) / (mx - mn) ∧
      normalize_update mn mx mn = 0 ∧
      normalize_update mx mx mn = 1 ∧
      ∀ x m : ℚ, normalize_update x m m = x := by
  have hne : mx - mn ≠ 0 := sub_ne_zero.mpr (ne_of_gt h)
  refine ⟨?_, ?_, ?_, ?_⟩
  · simp [normalize_update, hne]
  · simp [normalize_update, hne]
  · simp [normalize_update, hne, div_self hne]
  · intro x m; simp [normalize_update]

/-- Witness for C3 at `min = 0 < max = 2`, `v = 3`. -/
theorem C3_normalize_witness :
    (0 : ℚ) < 2 ∧
      (normalize_update 3 2 0 = (3 - 0) / (2 - 0) ∧
        normalize_update 0 2 0 = 0 ∧
        normalize_update 2 2 0 = 1 ∧
        ∀ x m : ℚ, normalize_update x m m = x) :=
  ⟨by norm_num, C3_normalize 3 0 2 (by norm_num)⟩

/-- C6 counterexample: with a population of three tracks of which only two
are by another artist, a request for 5 sampled tracks silently returns the
2 available ids — no `InsufficientPopulation` failure exists in the code,
the Cypher `LIMIT` just truncates. -/
theorem C6_counterexample :
    random_sample
        [⟨0, "Regina Spektor"⟩, ⟨1, "A"⟩, ⟨2, "B"⟩] 5 "Regina Spektor" =
      ([1, 2], [0]) ∧
    (random_sample
        [⟨0, "Regina Spektor"⟩, ⟨1, "A"⟩, ⟨2, "B"⟩] 5 "Regina Spektor").1.length
      < 5 := by
  have h : random_sample
      [⟨0, "Regina Spektor"⟩, ⟨1, "A"⟩, ⟨2, "B"⟩] 5 "Regina Spektor" =
      ([1, 2], [0]) := rfl
  exact ⟨h, by rw [h]; norm_num⟩

/-- C6 amended: the sampler never fails; it returns exactly
`min batch_size (number of tracks by other artists)` candidate ids,
silently truncating oversized requests. -/
theorem C6_sample_truncates (population : List TrackNode) (batch_size : Nat)
    (artist : String) :
    (random_sample population batch_size artist).1.length =
      min batch_size
        ((population.filter fun t => ¬ t.artist = artist).length) := by
  simp [random_sample]

/-- C8: candidate ids all come from tracks by a different artist, and (as
long as node ids are unique, which Neo4j internal ids are) no id is in both
the candidate set and the seed set. -/
theorem C8_seed_candidate_disjoint (population : List TrackNode)
    (batch_size : Nat) (artist : String)
    (hnodup : (population.map TrackNode.id).Nodup) :
    (∀ x ∈ (random_sample population batch_size artist).1,
        ∃ t ∈ population, t.id = x ∧ t.artist ≠ artist) ∧
      ∀ x ∈ (random_sample population batch_size artist).1,
        x ∉ (random_sample population batch_size artist).2 := by
  constructor
  · intro x hx
    simp only [random_sample] at hx
    have hx' := List.take_subset _ _ hx
    rcases List.mem_map.mp hx' with ⟨t, ht, rfl⟩
    rcases List.mem_filter.mp ht with ⟨htpop, htart⟩
    exact ⟨t, htpop, rfl, by simpa using htart⟩
  · intro x hx hx2
    simp only [random_sample] at hx hx2
    have hx' := List.take_subset _ _ hx
    rcases List.mem_map.mp hx' with ⟨t, ht, rfl⟩
    rcases List.mem_filter.mp ht with ⟨htpop, htart⟩
    rcases List.mem_map.mp hx2 with ⟨u, hu, hid⟩
    rcases List.mem_filter.mp hu with ⟨hupop, huart⟩
    have : u = t := List.inj_on_of_nodup_map hnodup hupop htpop hid
    subst this
    simp at htart huart
    exact htart (by simpa using huart)

/-- Witness for C8 on a three-track population with distinct ids. -/
theorem C8_seed_candidate_disjoint_witness :
    ((([⟨0, "Regina Spektor"⟩, ⟨1, "A"⟩, ⟨2, "B"⟩] :
        List TrackNode).map TrackNode.id).Nodup) ∧
    ((∀ x ∈ (random_sample [⟨0, "Regina Spektor"⟩, ⟨1, "A"⟩, ⟨2, "B"⟩] 2
          "Regina Spektor").1,
        ∃ t ∈ ([⟨0, "Regina Spektor"⟩, ⟨1, "A"⟩, ⟨2, "B"⟩] : List TrackNode),
          t.id = x ∧ t.artist ≠ "Regina Spektor") ∧
      ∀ x ∈ (random_sample [⟨0, "Regina Spektor"⟩, ⟨1, "A"⟩, ⟨2, "B"⟩] 2
          "Regina Spektor").1,
        x ∉ (random_sample [⟨0, "Regina Spektor"⟩, ⟨1, "A"⟩, ⟨2, "B"⟩] 2
          "Regina Spektor").2) :=
  ⟨by decide, C8_seed_candidate_disjoint _ 2 "Regina Spektor" (by decide)⟩

/-- C1 counterexample: node pair (0, 1) of `exProps` has score 2, which is
below the threshold 10, yet `evaluate_metrics` creates no edge — the gate
fires on `score > threshold`, not on `score < threshold` as the claim's
raw-distance direction requires. -/
theorem C1_counterexample :
    eucliean_distance (exProps 0) (exProps 1) = some 2 ∧ (2 : ℝ) < 10 ∧
      evaluate_metrics exProps 10 [0] [1] = some [] :=
  ⟨exProps_distance, by norm_num, evaluate_exProps_ten⟩

/-- C1 amended: a MATCHED edge carrying `sim_score = score` is created for
a considered pair exactly when the score is strictly ABOVE the threshold
(the code does not invert the comparison for the raw-distance policy). -/
theorem C1_edge_iff_above_threshold (props : Nat → Dict) (threshold : ℝ)
    (artists randoms : List Nat) (es : List Edge) (a r : Nat) (s : ℝ)
    (h : evaluate_metrics props threshold artists randoms = some es)
    (ha : a ∈ artists) (hr : r ∈ randoms)
    (hd : eucliean_distance (props a) (props r) = some s) :
    (⟨a, r, "MATCHED", s⟩ : Edge) ∈ es ↔ s > threshold := by
  constructor
  · intro he
    obtain ⟨-, -, -, -, h5⟩ :=
      evaluate_metrics_sound props threshold artists randoms es h _ he
    exact h5
  · intro hst
    exact evaluate_metrics_complete props threshold artists randoms es h
      a ha r hr s hd hst

/-- Witness for C1 amended: pair (0, 1) of `exProps` at threshold 0. -/
theorem C1_edge_iff_above_threshold_witness :
    evaluate_metrics exProps 0 [0] [1] = some [⟨0, 1, "MATCHED", 2⟩] ∧
      (0 : Nat) ∈ [0] ∧ (1 : Nat) ∈ [1] ∧
      eucliean_distance (exProps 0) (exProps 1) = some 2 ∧
      ((⟨0, 1, "MATCHED", 2⟩ : Edge) ∈ [(⟨0, 1, "MATCHED", 2⟩ : Edge)] ↔
        (2 : ℝ) > 0) :=
  ⟨evaluate_exProps_zero, by simp, by simp, exProps_distance,
    C1_edge_iff_above_threshold exProps 0 [0] [1] _ 0 1 2
      evaluate_exProps_zero (by simp) (by simp) exProps_distance⟩

/-- C7: materialization is not idempotent — running the step twice over the
same qualifying pair (0, 1) of `exProps` at threshold 0 leaves two identical
MATCHED edges in the store. -/
theorem C7_double_run_duplicates :
    (run_materialization [] exProps 0 [0] [1]).bind
        (fun db => run_materialization db exProps 0 [0] [1]) =
      some [⟨0, 1, "MATCHED", 2⟩, ⟨0, 1, "MATCHED", 2⟩] := by
  simp [run_materialization, evaluate_exProps_zero, create_relationship]

/-- C10: with the default threshold 0 the gate is strict — a pair with
identical feature vectors (distance exactly 0) never gets a MATCHED edge,
and every considered pair with strictly positive distance gets one. -/
theorem C10_strict_gate_at_zero (props : Nat → Dict)
    (artists randoms : List Nat) (es : List Edge) (a r : Nat) (s : ℝ)
    (h : evaluate_metrics props 0 artists randoms = some es)
    (ha : a ∈ artists) (hr : r ∈ randoms)
    (hd : eucliean_distance (props a) (props r) = some s) :
    (process_dict (props a) = process_dict (props r) →
      ¬ ∃ e ∈ es, e.start_node_id = a ∧ e.end_node_id = r) ∧
      (0 < s →
        ∃ e ∈ es, e.start_node_id = a ∧ e.end_node_id = r ∧ e.sim_score = s) := by
  constructor
  · intro hveq ⟨e, he, hsrc, hdst⟩
    have hzero : eucliean_distance (props a) (props r) = some 0 :=
      eucliean_distance_self_vec _ _ hveq
    obtain ⟨-, -, -, h4, h5⟩ :=
      evaluate_metrics_sound props 0 artists randoms es h e he
    rw [hsrc, hdst, hzero] at h4
    injection h4 with h4
    rw [← h4] at h5
    exact lt_irrefl 0 h5
  · intro hs
    exact ⟨⟨a, r, "MATCHED", s⟩,
      evaluate_metrics_complete props 0 artists randoms es h a ha r hr s hd hs,
      rfl, rfl, rfl⟩

/-- Witness for C10: pair (0, 1) of `exProps` with its positive distance 2. -/
theorem C10_strict_gate_at_zero_witness :
    evaluate_metrics exProps 0 [0] [1] = some [⟨0, 1, "MATCHED", 2⟩] ∧
      (0 : Nat) ∈ [0] ∧ (1 : Nat) ∈ [1] ∧
      eucliean_distance (exProps 0) (exProps 1) = some 2 ∧
      ((process_dict (exProps 0) = process_dict (exProps 1) →
          ¬ ∃ e ∈ [(⟨0, 1, "MATCHED", 2⟩ : Edge)],
            e.start_node_id = 0 ∧ e.end_node_id = 1) ∧
        ((0 : ℝ) < 2 →
          ∃ e ∈ [(⟨0, 1, "MATCHED", 2⟩ : Edge)],
            e.start_node_id = 0 ∧ e.end_node_id = 1 ∧ e.sim_score = 2)) :=
  ⟨evaluate_exProps_zero, by simp, by simp, exProps_distance,
    C10_strict_gate_at_zero exProps [0] [1] _ 0 1 2
      evaluate_exProps_zero (by simp) (by simp) exProps_distance⟩

/-- C5 counterexample: a record with one numeric feature against a record
with two yields vectors of lengths 1 and 2, yet the scorer does not fail —
numpy broadcasting silently stretches the length-1 vector and returns the
score `sqrt 5`. -/
theorem C5_counterexample :
    (process_dict [("energy", PValue.num 0)]).length = 1 ∧
      (process_dict [("energy", PValue.num 1), ("tempo", PValue.num 2)]).length
        = 2 ∧
      eucliean_distance [("energy", PValue.num 0)]
          [("energy", PValue.num 1), ("tempo", PValue.num 2)] =
        some (Real.sqrt 5) := by
  refine ⟨rfl, rfl, ?_⟩
  have hv : process_dict [("energy", PValue.num 0)] = [0] := rfl
  have hv2 : process_dict [("energy", PValue.num 1), ("tempo", PValue.num 2)] =
      [1, 2] := rfl
  unfold eucliean_distance broadcastSub
  rw [hv, hv2]
  norm_num
  have hs : sumSq [-1, -2] = 5 := by
    simp [sumSq]
    norm_num
  rw [hs]
  norm_num

/-- C5 amended: on feature vectors of unequal length the scorer aborts with
the numpy broadcast error UNLESS one of the two vectors has length exactly
1, in which case broadcasting silently produces a score. -/
theorem C5_mismatch_fails_unless_broadcast (t1 t2 : Dict)
    (h : (process_dict t1).length ≠ (process_dict t2).length) :
    (eucliean_distance t1 t2 = none ↔
      ¬ ((process_dict t1).length = 1 ∨ (process_dict t2).length = 1)) := by
  unfold eucliean_distance broadcastSub
  rw [if_neg h]
  rcases hv : process_dict t1 with - | ⟨a, l⟩
  · rcases hv2 : process_dict t2 with - | ⟨b, l2⟩
    · rw [hv, hv2] at h; simp at h
    · rcases l2 with - | ⟨b2, l3⟩ <;> simp
  · rcases l with - | ⟨a2, l1⟩
    · simp
    · rcases hv2 : process_dict t2 with - | ⟨b, l2⟩
      · simp
      · rcases l2 with - | ⟨b2, l3⟩ <;> simp

/-- Witness for C5 amended: vectors of lengths 2 and 3 (neither is 1), so
the scorer aborts. -/
theorem C5_mismatch_fails_unless_broadcast_witness :
    (process_dict [("energy", PValue.num 1), ("tempo", PValue.num 2)]).length ≠
        (process_dict [("energy", PValue.num 1), ("tempo", PValue.num 2),
          ("valence", PValue.num 3)]).length ∧
      (eucliean_distance [("energy", PValue.num 1), ("tempo", PValue.num 2)]
          [("energy", PValue.num 1), ("tempo", PValue.num 2),
            ("valence", PValue.num 3)] = none ↔
        ¬ ((process_dict [("energy", PValue.num 1),
              ("tempo", PValue.num 2)]).length = 1 ∨
          (process_dict [("energy", PValue.num 1), ("tempo", PValue.num 2),
            ("valence", PValue.num 3)]).length = 1)) :=
  ⟨by decide, C5_mismatch_fails_unless_broadcast _ _ (by decide)⟩

/-- C2 counterexample: with stored edge scores `[0.9, 0.5, 0.7]` and `k = 2`
the recommender does NOT return the 0.9 track: the query orders by
`sim_score ASC` unconditionally, so the top-score track is cut by `LIMIT 2`
and the result is the 0.5 and 0.7 tracks. -/
theorem C2_counterexample :
    "A, a" ∉ find_recommended_songs
        [⟨"A", "a", 9/10⟩, ⟨"B", "b", 1/2⟩, ⟨"C", "c", 7/10⟩] 2 ∧
      find_recommended_songs
          [⟨"A", "a", 9/10⟩, ⟨"B", "b", 1/2⟩, ⟨"C", "c", 7/10⟩] 2 =
        {"B, b", "C, c"} := by
  have hsort : ([⟨"A", "a", 9/10⟩, ⟨"B", "b", 1/2⟩, ⟨"C", "c", 7/10⟩] :
      List Row).mergeSort (fun a b => a.sim_score ≤ b.sim_score) =
      [⟨"B", "b", 1/2⟩, ⟨"C", "c", 7/10⟩, ⟨"A", "a", 9/10⟩] := by
    rw [List.mergeSort]
    simp [List.splitInTwo, List.merge, List.mergeSort]
    norm_num
  have h2 : find_recommended_songs
      [⟨"A", "a", 9/10⟩, ⟨"B", "b", 1/2⟩, ⟨"C", "c", 7/10⟩] 2 =
      {"B, b", "C, c"} := by
    rw [find_recommended_songs, hsort]
    rfl
  exact ⟨by rw [h2]; decide, h2⟩

/-- C2 amended: the recommender always orders by `sim_score` ascending
(the direction matching the raw-distance policy actually in use) and
truncates to k: with scores `[0.9, 0.5, 0.7]` and `k = 2` it returns the
0.5 and 0.7 tracks, lowest stored score first. -/
theorem C2_orders_ascending :
    (∀ (rows : List Row) (k : Nat),
        ((rows.mergeSort fun a b => a.sim_score ≤ b.sim_score).take k).Pairwise
          (fun x y => x.sim_score ≤ y.sim_score)) ∧
      find_recommended_songs
          [⟨"A", "a", 9/10⟩, ⟨"B", "b", 1/2⟩, ⟨"C", "c", 7/10⟩] 2 =
        {"B, b", "C, c"} := by
  constructor
  · intro rows k
    have hs := @List.sorted_mergeSort Row
      (fun a b : Row => decide (a.sim_score ≤ b.sim_score))
      (fun a b c h1 h2 => by
        simp only [decide_eq_true_eq] at *
        exact le_trans h1 h2)
      (fun a b => by
        simp only [Bool.or_eq_true, decide_eq_true_eq]
        exact le_total a.sim_score b.sim_score)
      rows
    have := List.Pairwise.sublist (List.take_sublist k _) hs
    exact this.imp (by simp)
  · have hsort : ([⟨"A", "a", 9/10⟩, ⟨"B", "b", 1/2⟩, ⟨"C", "c", 7/10⟩] :
        List Row).mergeSort (fun a b => a.sim_score ≤ b.sim_score) =
        [⟨"B", "b", 1/2⟩, ⟨"C", "c", 7/10⟩, ⟨"A", "a", 9/10⟩] := by
      rw [List.mergeSort]
      simp [List.splitInTwo, List.merge, List.mergeSort]
      norm_num
    rw [find_recommended_songs, hsort]
    rfl

/-- C9: the recommender deduplicates after truncation — the result never
has more than k songs, and with duplicate (name, artist) rows among the k
lowest-score rows it returns strictly fewer than k distinct songs even
though the store holds k distinct matched songs. -/
theorem C9_dedup_after_truncation :
    (∀ (rows : List Row) (k : Nat), (find_recommended_songs rows k).card ≤ k) ∧
      (find_recommended_songs
          [⟨"A", "a", 1/10⟩, ⟨"A", "a", 1/5⟩, ⟨"B", "b", 3/10⟩] 2).card = 1 ∧
      (([⟨"A", "a", 1/10⟩, ⟨"A", "a", 1/5⟩, ⟨"B", "b", 3/10⟩] : List Row).map
          fun r => r.name ++ ", " ++ r.artist).toFinset.card = 2 := by
  refine ⟨?_, ?_, by rfl⟩
  · intro rows k
    apply le_trans (List.toFinset_card_le _)
    simp [List.length_take]
  · have hsort : ([⟨"A", "a", 1/10⟩, ⟨"A", "a", 1/5⟩, ⟨"B", "b", 3/10⟩] :
        List Row).mergeSort (fun a b => a.sim_score ≤ b.sim_score) =
        [⟨"A", "a", 1/10⟩, ⟨"A", "a", 1/5⟩, ⟨"B", "b", 3/10⟩] := by
      apply List.mergeSort_of_sorted
      simp [List.pairwise_cons]
      norm_num
    rw [find_recommended_songs, hsort]
    rfl

end SpotifyRec
